import Mathlib

/-
Formal model of the dynamic questionnaire component `src/components/InfoForm.tsx`
(Job-Recruitment repository).

The component is a React client that renders a database-described form.  The
model below is a shallow embedding of its data and logic:

* JavaScript answer values (strings, string arrays from checkboxes, `File`
  handles, booleans) become the inductive type `Value`; the `formData` object
  becomes an association list from string keys to `Value` (JS object keys are
  strings; numeric indices are coerced through decimal notation, modelled by
  `jsKey`).
* JS truthiness (`!x`, `x || y`) and strict equality (`===`) are modelled by
  `jsTruthy`, `jsOrValue` and `jsStrictEq`.
* The question-rendering recursion, the submission pipeline, the checkbox
  update, the progress save/resume pipelines and the (inert) submit button are
  each translated into executable functions; remote collaborators (storage
  upload, upserts, the organization lookup) are passed in as oracles so that
  the control flow around their success and failure is the part being modelled.
-/

namespace InfoForm

/-- A JavaScript value as it occurs in the component's `formData` record:
a string (text/radio/select/textarea bindings), an array of strings (checkbox
bindings), a `File` handle (file bindings, identified here by its name), or a
boolean (the checkbox branch of `handleChange`). -/
inductive Value where
  | str (s : String)
  | list (l : List String)
  | file (name : String)
  | bool (b : Bool)
deriving DecidableEq, Repr

/-- The component's `formData` state: a JS object mapping string keys to
values, modelled as an insertion-ordered association list. -/
abbrev FormData := List (String × Value)

/-- Property lookup `obj[k]`: the value at the first matching key, or
`none` for JS `undefined`. -/
def getKey : FormData → String → Option Value
  | [], _ => none
  | (k', v) :: rest, k => if k' = k then some v else getKey rest k

/-- The object spread `\x7b...prev, [k]: v\x7d`: an existing key keeps its
position and is given the new value, a new key is appended. -/
def setKey : FormData → String → Value → FormData
  | [], k, v => [(k, v)]
  | (k', w) :: rest, k, v =>
    if k' = k then (k', v) :: rest else (k', w) :: setKey rest k v

/-- JS truthiness of a `Value`: the empty string and `false` are falsy;
arrays (even empty ones) and `File` objects are truthy. -/
def jsTruthy : Value → Bool
  | Value.str s => !(s == "")
  | Value.list _ => true
  | Value.file _ => true
  | Value.bool b => b

/-- JS truthiness of a possibly-absent property (`undefined` is falsy). -/
def jsTruthyOpt : Option Value → Bool
  | none => false
  | some v => jsTruthy v

/-- The JS expression `a || dflt` for a possibly-absent `a`. -/
def jsOrValue (a : Option Value) (dflt : Value) : Value :=
  match a with
  | none => dflt
  | some v => if jsTruthy v then v else dflt

/-- Decimal digit characters, used to model the string coercion of a JS
numeric property key. -/
def digitChar : Nat → Char
  | 0 => '0' | 1 => '1' | 2 => '2' | 3 => '3' | 4 => '4'
  | 5 => '5' | 6 => '6' | 7 => '7' | 8 => '8' | _ => '9'

/-- Decimal digits of `n`, most significant first (fuel-driven so that it
evaluates by `rfl`; the fuel `n + 1` always suffices). -/
def natDigitsAux : Nat → Nat → List Char
  | 0, _ => []
  | fuel + 1, n =>
    if n < 10 then [digitChar n] else natDigitsAux fuel (n / 10) ++ [digitChar (n % 10)]

/-- The string a non-negative integer property key is coerced to:
`formData[question.id]` reads the property named `String(id)`. -/
def jsKey (n : Nat) : String :=
  ⟨natDigitsAux (n + 1) n⟩

/-- JS strict equality `a === c` between a possibly-absent answer value and a
possibly-absent string (`condition_value`): `undefined === undefined` holds,
a string compares by contents, and no other combination is equal. -/
def jsStrictEq : Option Value → Option String → Bool
  | none, none => true
  | some (Value.str s), some c => s == c
  | _, _ => false

/-- The JS single-character test `s.startsWith(c)`. -/
def jsStartsWithChar (s : String) (c : Char) : Bool :=
  match s.data with
  | [] => false
  | d :: _ => d = c

/-- A fetched question row (the `Question` type of InfoForm.tsx): identifier,
owning form, section/subsection labels, type tag, display label, optional
choice options (label/value pairs), optional parent question identifier and
condition value for conditional sub-questions. (`section` and `type` are the
source field names; `section` is a Lean keyword, hence `sectionName`.) -/
structure Question where
  id : Nat
  form_id : Nat
  sectionName : String
  subsection : Option String
  type : String
  label : String
  options : Option (List (String × String))
  parent_question_id : Option Nat
  condition_value : Option String
deriving DecidableEq, Repr

/-- Truthiness of the optional `parent_question_id`: absent (`undefined`) and
`0` are falsy, any other number is truthy. -/
def truthyParentId : Option Nat → Bool
  | none => false
  | some p => !(p == 0)

/-- The property key read by `formData[parent_question_id]`: an absent parent
coerces to the literal key `"undefined"` (never reached in the source because
of short-circuiting, but kept for fidelity). -/
def parentKey : Option Nat → String
  | none => "undefined"
  | some p => jsKey p

/-- Visibility check of `renderQuestion` (InfoForm.tsx lines 146-150):
`!parent_question_id || (parent_question_id && formData[parent_question_id] === condition_value)`. -/
def shouldDisplay (q : Question) (fd : FormData) : Bool :=
  !(truthyParentId q.parent_question_id) ||
    (truthyParentId q.parent_question_id &&
      jsStrictEq (getKey fd (parentKey q.parent_question_id)) q.condition_value)

/-- The JS expression `s || dflt` for a string (empty string is falsy). -/
def jsOrString (s : String) (dflt : String) : String :=
  if s == "" then dflt else s

/-- The JS expression `s || dflt` for an optional string. -/
def jsOrOptString (s : Option String) (dflt : String) : String :=
  match s with
  | none => dflt
  | some s => if s == "" then dflt else s

/-- The two-level grouping structure built by the `groupedQuestions` reduce:
an insertion-ordered map from section name to an insertion-ordered map from
subsection name to the questions pushed into that bucket. -/
abbrev Grouped := List (String × List (String × List Question))

/-- Push a question into the subsection bucket `sub`, creating it at the end
when absent (JS object insertion order). -/
def addToSub (subs : List (String × List Question)) (sub : String) (q : Question) :
    List (String × List Question) :=
  match subs with
  | [] => [(sub, [q])]
  | (k, l) :: rest =>
    if k = sub then (k, l ++ [q]) :: rest else (k, l) :: addToSub rest sub q

/-- Push a question into the section bucket `sec`, creating it at the end when
absent. -/
def addToGrouped (acc : Grouped) (sec sub : String) (q : Question) : Grouped :=
  match acc with
  | [] => [(sec, [(sub, [q])])]
  | (k, subs) :: rest =>
    if k = sec then (k, addToSub subs sub q) :: rest
    else (k, subs) :: addToGrouped rest sec sub q

/-- The `groupedQuestions` reduce (InfoForm.tsx lines 485-492): sections
default to `"General"`, subsections to `"No Subsection"`. -/
def groupedQuestions (qs : List Question) : Grouped :=
  qs.foldl
    (fun acc q =>
      addToGrouped acc (jsOrString q.sectionName "General")
        (jsOrOptString q.subsection "No Subsection") q)
    []

/-- JS strict equality `parent_question_id === id` between the optional parent
identifier and a number. -/
def beqParentId (o : Option Nat) (i : Nat) : Bool :=
  match o with
  | none => false
  | some p => p == i

/-- The type tags for which the `switch` of `renderQuestion` produces markup;
the `default` case returns `null`. -/
def renderableTypes : List String :=
  ["text", "radio", "select", "checkbox", "file", "textarea", "file-photo"]

/-- The questions whose markup `renderQuestion` emits when called on `q`
(InfoForm.tsx lines 141-318): nothing when the visibility check fails; for a
radio question, the question itself followed by the recursively rendered
sub-questions selected by the filter at lines 186-196
(`subQuestion.parent_question_id === id && formData[id] === subQuestion.condition_value`);
for the other known type tags just the question; nothing for unknown tags.
The fuel bounds the recursion depth (the JS recursion is unbounded and any
fuel large enough for the actual nesting gives the same output). -/
def renderQuestionFuel : Nat → List Question → FormData → Question → List Question
  | 0, _, _, _ => []
  | fuel + 1, qs, fd, q =>
    if shouldDisplay q fd then
      if q.type = "radio" then
        q :: (qs.filter fun sub =>
            beqParentId sub.parent_question_id q.id &&
              jsStrictEq (getKey fd (jsKey q.id)) sub.condition_value).flatMap
          (fun sub => renderQuestionFuel fuel qs fd sub)
      else if renderableTypes.contains q.type then [q]
      else []
    else []

/-- The questions rendered by the component body (InfoForm.tsx lines 545-588)
once loading has finished: every section group whose collapse flag is unset
lists, directly for the `"No Subsection"` bucket and behind a second collapse
flag for named subsections, the top-level (`!question.parent_question_id`)
questions through `renderQuestion`. -/
def renderedQuestions (qs : List Question) (fd : FormData) (collapsed : String → Bool)
    (fuel : Nat) : List Question :=
  (groupedQuestions qs).flatMap fun g =>
    if collapsed g.1 then []
    else
      g.2.flatMap fun sg =>
        if sg.1 = "No Subsection" then
          (sg.2.filter fun q => !(truthyParentId q.parent_question_id)).flatMap
            (renderQuestionFuel fuel qs fd)
        else if collapsed (g.1 ++ "-" ++ sg.1) then []
        else
          (sg.2.filter fun q => !(truthyParentId q.parent_question_id)).flatMap
            (renderQuestionFuel fuel qs fd)

/-- The list the checkbox handler starts from: `prevData[questionId] || []`.
An absent or falsy current value gives the empty array; an array gives its
elements. A truthy non-array value is outside the model (`none`): on it the
source would spread a string into characters or raise a `TypeError` on
`.filter`, and no rendered interaction produces such a value under a checkbox
question's key. -/
def listLikeValues : Option Value → Option (List String)
  | none => some []
  | some (Value.str s) => if s == "" then some [] else none
  | some (Value.bool b) => if b then none else some []
  | some (Value.list l) => some l
  | some (Value.file _) => none

/-- The checkbox update `handleCheckboxChange` (InfoForm.tsx lines 357-374):
on check append the value to `prevData[questionId] || []`, on uncheck keep the
entries different from it, and store the result back under the question's
key. -/
def handleCheckboxChange (fd : FormData) (questionId : Nat) (value : String)
    (checked : Bool) : Option FormData :=
  (listLikeValues (getKey fd (jsKey questionId))).map fun currentValues =>
    let updatedValues :=
      if checked then currentValues ++ [value]
      else currentValues.filter fun v => v ≠ value
    setKey fd (jsKey questionId) (Value.list updatedValues)

/-- Lower-case hexadecimal digit characters (for the `\u00XX` escapes
`JSON.stringify` emits for control characters). -/
def hexDigitChar : Nat → Char
  | 0 => '0' | 1 => '1' | 2 => '2' | 3 => '3' | 4 => '4' | 5 => '5' | 6 => '6'
  | 7 => '7' | 8 => '8' | 9 => '9' | 10 => 'a' | 11 => 'b' | 12 => 'c'
  | 13 => 'd' | 14 => 'e' | _ => 'f'

/-- The value of a hexadecimal digit character (as accepted by `JSON.parse`). -/
def hexVal (c : Char) : Option Nat :=
  if '0' ≤ c ∧ c ≤ '9' then some (c.toNat - 48)
  else if 'a' ≤ c ∧ c ≤ 'f' then some (c.toNat - 87)
  else if 'A' ≤ c ∧ c ≤ 'F' then some (c.toNat - 55)
  else none

/-- The escape `JSON.stringify` applies to one character of a string value:
quote and backslash get a backslash escape, the named control characters get
their short escapes, the remaining control characters get `\u00XX`, and every
other character is emitted as itself. -/
def escapeChar (c : Char) : List Char :=
  if c = '"' then ['\\', '"']
  else if c = '\\' then ['\\', '\\']
  else if c = '\x08' then ['\\', 'b']
  else if c = '\x0c' then ['\\', 'f']
  else if c = '\n' then ['\\', 'n']
  else if c = '\r' then ['\\', 'r']
  else if c = '\t' then ['\\', 't']
  else if c.toNat < 32 then
    ['\\', 'u', '0', '0', hexDigitChar (c.toNat / 16), hexDigitChar (c.toNat % 16)]
  else [c]

/-- The inverse of the single-character escapes accepted by `JSON.parse`. -/
def unescapeChar (c : Char) : Option Char :=
  if c = '"' then some '"'
  else if c = '\\' then some '\\'
  else if c = '/' then some '/'
  else if c = 'b' then some '\x08'
  else if c = 'f' then some '\x0c'
  else if c = 'n' then some '\n'
  else if c = 'r' then some '\r'
  else if c = 't' then some '\t'
  else none

/-- A JSON string literal for `s`: quote, escaped characters, quote. -/
def quoteChars (s : String) : List Char :=
  '"' :: (s.data.flatMap escapeChar ++ ['"'])

/-- The comma-separated JSON string literals of the list elements. -/
def elemsChars : List String → List Char
  | [] => []
  | [s] => quoteChars s
  | s :: rest => quoteChars s ++ ',' :: elemsChars rest

/-- `JSON.stringify` on an array of strings (the shape a checkbox answer
has): bracketed, comma-separated, escaped string literals. -/
def stringifyStringList (l : List String) : String :=
  ⟨'[' :: (elemsChars l ++ [']'])⟩

/-- Parse the body of a JSON string literal after its opening quote,
returning the decoded characters and the input following the closing quote.
This is `JSON.parse`'s string grammar: a closing quote ends the literal, a
backslash introduces either a `\uXXXX` code or a single-character escape, any
other character stands for itself. -/
def parseJsonStringRest : List Char → Option (List Char × List Char)
  | [] => none
  | c :: rest =>
    if c = '"' then some ([], rest)
    else if c = '\\' then
      match rest with
      | [] => none
      | e :: rest2 =>
        if e = 'u' then
          match rest2 with
          | h1 :: h2 :: h3 :: h4 :: rest3 =>
            match hexVal h1, hexVal h2, hexVal h3, hexVal h4 with
            | some d1, some d2, some d3, some d4 =>
              let n := ((d1 * 16 + d2) * 16 + d3) * 16 + d4
              if n < 55296 then
                match parseJsonStringRest rest3 with
                | some (cs, r) => some (Char.ofNat n :: cs, r)
                | none => none
              else none
            | _, _, _, _ => none
          | _ => none
        else
          match unescapeChar e with
          | none => none
          | some c2 =>
            match parseJsonStringRest rest2 with
            | some (cs, r) => some (c2 :: cs, r)
            | none => none
    else
      match parseJsonStringRest rest with
      | some (cs, r) => some (c :: cs, r)
      | none => none

/-- Parse one JSON string literal including its opening quote. -/
def parseJsonString : List Char → Option (List Char × List Char)
  | '"' :: rest => parseJsonStringRest rest
  | _ => none

/-- Parse the comma-separated elements of a non-empty JSON array of strings,
up to and including the closing bracket.  The fuel bounds the number of
elements; the input length always suffices. -/
def parseElems : Nat → List Char → Option (List String × List Char)
  | 0, _ => none
  | fuel + 1, l =>
    match parseJsonString l with
    | none => none
    | some (cs, r) =>
      match r with
      | ']' :: r2 => some ([⟨cs⟩], r2)
      | ',' :: r2 =>
        match parseElems fuel r2 with
        | none => none
        | some (ss, r3) => some (⟨cs⟩ :: ss, r3)
      | _ => none

/-- `JSON.parse` on the fragment the component stores: an array of strings.
Other JSON shapes (objects, nested arrays, numbers) are outside the fragment
the save-time encoder produces for checkbox answers and yield `none`, as does
any malformed input (where `JSON.parse` throws). -/
def parseStringArray (s : String) : Option (List String) :=
  match s.data with
  | '[' :: rest =>
    match rest with
    | [']'] => some []
    | _ =>
      match parseElems rest.length rest with
      | some (ss, []) => some ss
      | _ => none
  | _ => none

/-- The resume-time decoding of one stored answer (InfoForm.tsx lines
465-468): a stored string whose first character is a brace or a bracket is
passed to `JSON.parse` (modelled on the string-array fragment), anything else
is kept as the plain string.  `none` models a `JSON.parse` throw (caught by
the surrounding try/catch). -/
def decodeAnswer (s : String) : Option Value :=
  if jsStartsWithChar s '{' || jsStartsWithChar s '[' then
    match parseStringArray s with
    | some l => some (Value.list l)
    | none => none
  else some (Value.str s)

/-- The save-time encoding of one answer (InfoForm.tsx line 409):
`typeof answer === "object" ? JSON.stringify(answer) : answer`.  Arrays are
stringified; a `File` object stringifies to an empty JSON object; strings and
booleans are kept raw. -/
def savePayloadAnswer : Value → Value
  | Value.str s => Value.str s
  | Value.list l => Value.str (stringifyStringList l)
  | Value.file _ => Value.str "\x7b\x7d"
  | Value.bool b => Value.bool b

/-- Saving one answer and decoding the stored text on resume: the round trip
the progress pipelines perform on each entry (only string-typed stored
answers reach the decoder; the responses/progress stores hold text). -/
def progressRoundTrip (v : Value) : Option Value :=
  match savePayloadAnswer v with
  | Value.str stored => decodeAnswer stored
  | _ => none

/-- One element of the `responsePayload` built in `handleSubmit` (InfoForm.tsx
lines 118-121): the object literal has exactly the two properties
`question_id` and `answer`. -/
structure ResponseRecord where
  question_id : Nat
  answer : Value
deriving DecidableEq, Repr

/-- The property names of the object literal built for each response record
(InfoForm.tsx lines 118-121). -/
def responseRecordFields : List String :=
  ["question_id", "answer"]

/-- The `onConflict` string passed to the responses upsert (InfoForm.tsx
line 128). -/
def responsesOnConflict : String :=
  "organization_id,question_id"

/-- The answer computed for one question inside `handleSubmit` (InfoForm.tsx
lines 97-122): `formData[question.id] || ""`, except that a file-typed
question whose current value is a `File` is first uploaded (the oracle
`upload` models `supabase.storage.upload` keyed by the file name) and the
returned storage path becomes the answer; an upload error is thrown. -/
def answerFor (fd : FormData) (q : Question) (upload : String → Except String String) :
    Except String Value :=
  let answer := jsOrValue (getKey fd (jsKey q.id)) (Value.str "")
  if q.type = "file" then
    match getKey fd (jsKey q.id) with
    | some (Value.file name) =>
      match upload name with
      | Except.error e => Except.error e
      | Except.ok path => Except.ok (Value.str (jsOrString path ""))
    | _ => Except.ok answer
  else Except.ok answer

/-- The `responsePayload` of `handleSubmit`: one record per fetched question,
in fetch order, each from `answerFor`; the first upload error aborts the
whole construction (`Promise.all` rejects with it). -/
def buildResponsePayload (qs : List Question) (fd : FormData)
    (upload : String → Except String String) : Except String (List ResponseRecord) :=
  match qs with
  | [] => Except.ok []
  | q :: rest =>
    match answerFor fd q upload with
    | Except.error e => Except.error e
    | Except.ok a =>
      match buildResponsePayload rest fd upload with
      | Except.error e => Except.error e
      | Except.ok rs => Except.ok (⟨q.id, a⟩ :: rs)

/-- The observable outcome of `handleSubmit`: the upsert calls issued to the
responses store (payload and conflict key), the submitted flag, whether the
generic error alert was shown, the form data afterwards (the handler never
writes it), and the loading flag (reset in `finally`). -/
structure SubmitOutcome where
  upserts : List (List ResponseRecord × String)
  submitted : Bool
  errorAlert : Bool
  finalFormData : FormData
  loading : Bool
deriving DecidableEq, Repr

/-- `handleSubmit` (InfoForm.tsx lines 92-139): build the payload (uploading
files), then upsert it with conflict key `organization_id,question_id`; any
thrown error lands in the catch block which alerts and skips `setSubmitted`. -/
def handleSubmit (qs : List Question) (fd : FormData)
    (upload : String → Except String String)
    (upsertErr : List ResponseRecord → Option String) : SubmitOutcome :=
  match buildResponsePayload qs fd upload with
  | Except.error _ => ⟨[], false, true, fd, false⟩
  | Except.ok payload =>
    match upsertErr payload with
    | some _ => ⟨[(payload, responsesOnConflict)], false, true, fd, false⟩
    | none => ⟨[(payload, responsesOnConflict)], true, false, fd, false⟩

/-- One element of the `savePayload` built in `handleSaveProgress`
(InfoForm.tsx lines 404-411).  `question_id` is `Number(questionId)`; for a
key that is not a numeric string this is `NaN`, modelled as `none`. -/
structure ProgressRecord where
  form_id : Nat
  contactEmail : Value
  question_id : Option Nat
  answer : Value
deriving DecidableEq, Repr

/-- The `onConflict` string passed to the progress upsert (InfoForm.tsx
line 414). -/
def progressOnConflict : String :=
  "form_id,contactEmail,question_id"

/-- `Number(s)` on a property key, for the fragment that occurs here:
a non-empty all-digit key is its numeric value, anything else is `NaN`
(`none`). -/
def jsToNumber (s : String) : Option Nat :=
  if !s.data.isEmpty && s.data.all (fun c => c.isDigit) then
    some (s.data.foldl (fun a c => a * 10 + (c.toNat - 48)) 0)
  else none

/-- The observable outcome of `handleSaveProgress`: alerts shown and upsert
calls issued to the progress store. -/
structure SaveOutcome where
  alerts : List String
  upserts : List (List ProgressRecord × String)
deriving DecidableEq, Repr

/-- `handleSaveProgress` (InfoForm.tsx lines 397-424): refuse with an alert
when `formData.contactEmail` is falsy; otherwise build one record per
`formData` entry (answers through the save-time encoding) and upsert them
with conflict key `form_id,contactEmail,question_id`. -/
def handleSaveProgress (formId : Nat) (fd : FormData)
    (upsertErr : List ProgressRecord → Option String) : SaveOutcome :=
  if !(jsTruthyOpt (getKey fd "contactEmail")) then
    ⟨["Please enter your email before saving progress."], []⟩
  else
    let email := jsOrValue (getKey fd "contactEmail") (Value.str "")
    let payload := fd.map fun kv =>
      (⟨formId, email, jsToNumber kv.1, savePayloadAnswer kv.2⟩ : ProgressRecord)
    match upsertErr payload with
    | some _ => ⟨["Failed to save progress. Please try again."], [(payload, progressOnConflict)]⟩
    | none => ⟨["Progress saved successfully!"], [(payload, progressOnConflict)]⟩

/-- The observable outcome of `handleSearch`: alerts shown, whether the
organization lookup was issued, whether the responses query was issued, and
the form data afterwards. -/
structure SearchOutcome where
  alerts : List String
  orgLookedUp : Bool
  responsesFetched : Bool
  finalFormData : FormData
deriving DecidableEq, Repr

/-- Modelled from the supabase-js contract (the client library is outside
this repository): a `.single()` query that matches no rows resolves with a
`PGRST116` error and `null` data, not with a bare `null` result. -/
def singleZeroRows : Option Nat × Option String :=
  (none, some "PGRST116")

/-- `handleSearch` (InfoForm.tsx lines 426-483): refuse with an alert when
`formData.contactEmail` is falsy; look the organization up by email (the
oracle returns the `.single()` result pair `(data, error)`; a returned error
is thrown, reaching the catch block's generic alert); a `null` row without an
error alerts "No organization found for this email."; otherwise fetch the
organization's response rows, alert when there are none, and otherwise decode
every answer (a decode failure is a thrown `JSON.parse` error) and merge the
decoded entries over the current form data. -/
def handleSearch (fd : FormData) (orgLookup : Value → Option Nat × Option String)
    (fetchResponses : Nat → Except String (List (Nat × String))) : SearchOutcome :=
  match getKey fd "contactEmail" with
  | none => ⟨["Please enter an email to search."], false, false, fd⟩
  | some email =>
    if !(jsTruthy email) then ⟨["Please enter an email to search."], false, false, fd⟩
    else
      match orgLookup email with
      | (_, some _) => ⟨["Failed to retrieve saved progress."], true, false, fd⟩
      | (none, none) => ⟨["No organization found for this email."], true, false, fd⟩
      | (some orgId, none) =>
        match fetchResponses orgId with
        | Except.error _ => ⟨["Failed to retrieve saved progress."], true, true, fd⟩
        | Except.ok rs =>
          if rs.length = 0 then
            ⟨["No saved progress found for this email."], true, true, fd⟩
          else
            match rs.mapM (fun e => (decodeAnswer e.2).map fun v => (jsKey e.1, v)) with
            | none => ⟨["Failed to retrieve saved progress."], true, true, fd⟩
            | some entries =>
              ⟨[], true, true, entries.foldl (fun acc kv => setKey acc kv.1 kv.2) fd⟩

/-- The component state held in React hooks (InfoForm.tsx lines 29-37). -/
structure ComponentState where
  questions : List Question
  formData : FormData
  loading : Bool
  submitted : Bool
  collapsedSections : List (String × Bool)
deriving DecidableEq, Repr

/-- A remote operation a UI handler could issue. -/
inductive RemoteCall where
  | storageUpload (path : String)
  | upsertResponses
  | upsertProgress
  | selectOrganizations
  | selectResponses
deriving DecidableEq, Repr

/-- Run an optional JSX event handler: an element with no bound handler
leaves the state alone and issues nothing. -/
def runHandler (h : Option (ComponentState → ComponentState × List RemoteCall))
    (s : ComponentState) : ComponentState × List RemoteCall :=
  match h with
  | some f => f s
  | none => (s, [])

/-- The `type` attribute of the rendered Submit button (InfoForm.tsx
line 592). -/
def submitButtonType : String :=
  "button"

/-- The `onClick` binding of the rendered Submit button (InfoForm.tsx lines
590-596): the attribute is commented out, so no handler is bound. -/
def submitButtonOnClick : Option (ComponentState → ComponentState × List RemoteCall) :=
  none

/-- The `onSubmit` binding of the rendered form element (InfoForm.tsx lines
535-539): the attribute is commented out, so no handler is bound. -/
def formOnSubmit : Option (ComponentState → ComponentState × List RemoteCall) :=
  none

/-- Clicking the rendered Submit button: its `onClick` handler (if any) runs,
and only a button of type `"submit"` additionally dispatches the form's
`onSubmit` handler. -/
def clickSubmitButton (s : ComponentState) : ComponentState × List RemoteCall :=
  let afterClick := runHandler submitButtonOnClick s
  if submitButtonType = "submit" then
    let afterSubmit := runHandler formOnSubmit afterClick.1
    (afterSubmit.1, afterClick.2 ++ afterSubmit.2)
  else afterClick

/-- The form-data states reachable through user interaction with the rendered
form, starting from the initial empty object: the bound input handlers are
`handleChange` for text, textarea, select and radio inputs (all named
`String(id)` for a fetched question, storing the string value; its checkbox
branch, lines 74-79, stores `target.checked` and is kept although no rendered
input is bound to it with type `checkbox`), `handleCheckboxChange` for
checkbox options, and `handleFileChange`/`handleFilePhotoChange` for file
inputs (storing the `File` handle under the question's id).
`handleSaveProgress`, `handleSearch` and `handleSubmit` are not referenced by
any rendered element, and `toggleCollapse` does not touch `formData`. -/
inductive ReachableFormData (qs : List Question) : FormData → Prop
  | init : ReachableFormData qs []
  | textInput (q : Question) (hq : q ∈ qs) (v : String) (fd : FormData)
      (h : ReachableFormData qs fd) :
      ReachableFormData qs (setKey fd (jsKey q.id) (Value.str v))
  | checkedInput (q : Question) (hq : q ∈ qs) (checked : Bool) (fd : FormData)
      (h : ReachableFormData qs fd) :
      ReachableFormData qs (setKey fd (jsKey q.id) (Value.bool checked))
  | checkboxInput (q : Question) (hq : q ∈ qs) (v : String) (checked : Bool)
      (fd fd' : FormData) (h : ReachableFormData qs fd)
      (hstep : handleCheckboxChange fd q.id v checked = some fd') :
      ReachableFormData qs fd'
  | fileInput (q : Question) (hq : q ∈ qs) (name : String) (fd : FormData)
      (h : ReachableFormData qs fd) :
      ReachableFormData qs (setKey fd (jsKey q.id) (Value.file name))

/-- A question occurs somewhere inside a grouping structure. -/
def inGrouped (g : Grouped) (x : Question) : Prop :=
  ∃ sec ∈ g, ∃ sg ∈ sec.2, x ∈ sg.2

/-- Sample top-level text question (scenario inputs for concrete theorems). -/
def sampleParentQ : Question :=
  ⟨10, 1, "S", none, "text", "Q10", none, none, none⟩

/-- Sample conditional sub-question of `sampleParentQ`, shown when the parent
answer is `"yes"`. -/
def sampleSubQ : Question :=
  ⟨11, 1, "S", none, "radio", "Q11", some [("Yes", "yes"), ("No", "no")], some 10, some "yes"⟩

/-- A form-data state in which `sampleSubQ`'s condition is not met while it
still holds a previously entered value. -/
def sampleHiddenFd : FormData :=
  [(jsKey 10, Value.str "no"), (jsKey 11, Value.str "x")]

/-- Sample question whose `parent_question_id` is the JS-falsy number `0`. -/
def sampleZeroParentQ : Question :=
  ⟨7, 1, "S", none, "text", "L", none, some 0, some "yes"⟩

/-- A form-data state with a non-matching answer under key `"0"`. -/
def sampleZeroParentFd : FormData :=
  [(jsKey 0, Value.str "no")]

/-- Sample question whose parent identifier `0` refers to no fetched
question. -/
def sampleOrphanQ : Question :=
  ⟨5, 1, "S", none, "text", "L", none, some 0, some "x"⟩

/-- Sample question whose nonzero parent identifier `99` refers to no fetched
question. -/
def sampleOrphanQ2 : Question :=
  ⟨6, 1, "S", none, "text", "L2", none, some 99, some "x"⟩

/-- Sample file-typed question. -/
def sampleFileQ : Question :=
  ⟨3, 1, "S", none, "file", "CV", none, none, none⟩

/-- A form-data state holding a `File` under `sampleFileQ`'s key. -/
def sampleFileFd : FormData :=
  [(jsKey 3, Value.file "cv.pdf")]

/-- Sample text question with identifier 1. -/
def sampleTextQ : Question :=
  ⟨1, 1, "S", none, "text", "Name", none, none, none⟩

/-- A form-data state holding a text answer for `sampleTextQ`. -/
def sampleTextFd : FormData :=
  [(jsKey 1, Value.str "x")]

/-- A form-data state holding only an identifying email. -/
def sampleEmailFd : FormData :=
  [("contactEmail", Value.str "nobody@example.com")]

/-- A sample component state. -/
def sampleState : ComponentState :=
  ⟨[sampleTextQ], sampleTextFd, false, false, []⟩

/-! Helper lemmas about the embedding. -/

theorem string_mk_data (s : String) : String.mk s.data = s := rfl

theorem jsStrictEq_eq_true_iff (a : Option Value) (b : Option String) :
    jsStrictEq a b = true ↔ a = b.map Value.str := by
  cases a with
  | none => cases b <;> simp [jsStrictEq]
  | some v => cases v <;> cases b <;> simp [jsStrictEq]

theorem setKey_of_getKey_eq (fd : FormData) (k : String) (v : Value)
    (h : getKey fd k = some v) : setKey fd k v = fd := by
  induction fd with
  | nil => simp [getKey] at h
  | cons kv rest ih =>
    obtain ⟨k', w⟩ := kv
    by_cases hk : k' = k
    · subst hk
      simp [getKey] at h
      simp [setKey, h]
    · simp [getKey, hk] at h
      simp [setKey, hk, ih h]

theorem getKey_mem {fd : FormData} {k : String} {v : Value}
    (h : getKey fd k = some v) : (k, v) ∈ fd := by
  induction fd with
  | nil => simp [getKey] at h
  | cons kv rest ih =>
    obtain ⟨k', w⟩ := kv
    by_cases hk : k' = k
    · subst hk
      simp [getKey] at h
      simp [h]
    · simp [getKey, hk] at h
      exact List.mem_cons_of_mem _ (ih h)

theorem mem_setKey {fd : FormData} {k : String} {v : Value} :
    ∀ kv ∈ setKey fd k v, kv.1 = k ∨ kv ∈ fd := by
  induction fd with
  | nil =>
    intro kv hkv
    simp [setKey] at hkv
    simp [hkv]
  | cons kw rest ih =>
    obtain ⟨k', w⟩ := kw
    intro kv hkv
    by_cases hk : k' = k
    · subst hk
      simp [setKey] at hkv
      rcases hkv with rfl | hkv
      · exact Or.inl rfl
      · exact Or.inr (List.mem_cons_of_mem _ hkv)
    · simp [setKey, hk] at hkv
      rcases hkv with rfl | hkv
      · exact Or.inr (List.mem_cons_self _ _)
      · rcases ih kv hkv with h | h
        · exact Or.inl h
        · exact Or.inr (List.mem_cons_of_mem _ h)

/-! Claim theorems. -/

/-- C2 (amended): the visibility evaluator returns true when the question has
no parent identifier, and also whenever the parent identifier is the JS-falsy
number 0; otherwise, for a nonzero parent identifier `p`, it returns true iff
the Answer State entry under `p`'s key is exactly the string of the
question's condition value (an absent condition matching exactly an absent
entry), so any mismatch, including an absent parent answer against a set
condition value, yields hidden. -/
theorem visibility_eval_spec (q : Question) (fd : FormData) :
    (q.parent_question_id = none → shouldDisplay q fd = true) ∧
    (q.parent_question_id = some 0 → shouldDisplay q fd = true) ∧
    (∀ p, q.parent_question_id = some p → p ≠ 0 →
      (shouldDisplay q fd = true ↔
        getKey fd (jsKey p) = Option.map Value.str q.condition_value)) := by
  refine ⟨?_, ?_, ?_⟩
  · intro h
    simp [shouldDisplay, h, truthyParentId]
  · intro h
    simp [shouldDisplay, h, truthyParentId]
  · intro p hp hp0
    simp [shouldDisplay, hp, truthyParentId, parentKey, hp0, jsStrictEq_eq_true_iff]

/-- Witness for C2 at a concrete question and answer state. -/
theorem visibility_eval_spec_witness :
    shouldDisplay sampleSubQ [(jsKey 10, Value.str "yes")] = true ↔
      getKey [(jsKey 10, Value.str "yes")] (jsKey 10) =
        Option.map Value.str sampleSubQ.condition_value :=
  (visibility_eval_spec sampleSubQ [(jsKey 10, Value.str "yes")]).2.2 10 rfl (by decide)

/-- C2 counterexample: a question whose parent identifier is 0 is displayed
even though the stored parent answer differs from its condition value, where
the claim as stated requires it to be hidden. -/
theorem visibility_zero_parent_counterexample :
    sampleZeroParentQ.parent_question_id = some 0 ∧
    getKey sampleZeroParentFd (jsKey 0) ≠
      Option.map Value.str sampleZeroParentQ.condition_value ∧
    shouldDisplay sampleZeroParentQ sampleZeroParentFd = true := by
  decide

/-- C9: clicking the rendered Submit control changes nothing: the form binds
no submit handler and the button has type "button" with no click binding, so
the questions list, Answer State, collapse flags, loading flag and submitted
flag are all unchanged and no remote call is issued. -/
theorem submit_button_inert (s : ComponentState) :
    (clickSubmitButton s).1.questions = s.questions ∧
    (clickSubmitButton s).1.formData = s.formData ∧
    (clickSubmitButton s).1.collapsedSections = s.collapsedSections ∧
    (clickSubmitButton s).1.loading = s.loading ∧
    (clickSubmitButton s).1.submitted = s.submitted ∧
    (clickSubmitButton s).2 = [] := by
  refine ⟨rfl, rfl, rfl, rfl, rfl, rfl⟩

/-- Witness for C9 at a concrete component state. -/
theorem submit_button_inert_witness :
    (clickSubmitButton sampleState).1.formData = sampleState.formData ∧
    (clickSubmitButton sampleState).2 = [] :=
  ⟨(submit_button_inert sampleState).2.1, (submit_button_inert sampleState).2.2.2.2.2⟩

/-- C4 counterexample: applying the check operation twice with the same value
from the empty state stores the value twice, a duplicate entry. -/
theorem checkbox_double_check_duplicates :
    (handleCheckboxChange [] 1 "a" true).bind
        (fun fd1 => handleCheckboxChange fd1 1 "a" true) =
      some [(jsKey 1, Value.list ["a", "a"])] ∧
    (["a", "a"] : List String).count "a" = 2 := by
  decide

/-- C4 (amended): on a list-valued entry, unchecking a value not present
leaves the Answer State unchanged (a no-op), while checking appends the value
unconditionally, so checking an already-present value produces a duplicate
entry; the update is not set-like. -/
theorem checkbox_update_spec (fd : FormData) (questionId : Nat) (v : String)
    (l : List String) (h : getKey fd (jsKey questionId) = some (Value.list l)) :
    (v ∉ l → handleCheckboxChange fd questionId v false = some fd) ∧
    handleCheckboxChange fd questionId v true =
      some (setKey fd (jsKey questionId) (Value.list (l ++ [v]))) := by
  constructor
  · intro hv
    have hfilter : (l.filter fun x => !decide (x = v)) = l := by
      rw [List.filter_eq_self]
      intro a ha
      simp
      rintro rfl
      exact hv ha
    simp [handleCheckboxChange, h, listLikeValues, hfilter, setKey_of_getKey_eq fd _ _ h]
  · simp [handleCheckboxChange, h, listLikeValues]

/-- Witness for C4 at a concrete answer state. -/
theorem checkbox_update_spec_witness :
    handleCheckboxChange [(jsKey 1, Value.list ["a"])] 1 "b" false =
      some [(jsKey 1, Value.list ["a"])] ∧
    handleCheckboxChange [(jsKey 1, Value.list ["a"])] 1 "b" true =
      some (setKey [(jsKey 1, Value.list ["a"])] (jsKey 1) (Value.list (["a"] ++ ["b"]))) :=
  ⟨(checkbox_update_spec [(jsKey 1, Value.list ["a"])] 1 "b" ["a"] (by decide)).1 (by decide),
   (checkbox_update_spec [(jsKey 1, Value.list ["a"])] 1 "b" ["a"] (by decide)).2⟩

/-- C1 counterexample: the submission payload contains a record for a
question whose parent condition is not met (its previously held value), where
the claim requires no record for a non-visible question. -/
theorem hidden_question_record_counterexample :
    shouldDisplay sampleSubQ sampleHiddenFd = false ∧
    buildResponsePayload [sampleParentQ, sampleSubQ] sampleHiddenFd (fun _ => Except.ok "") =
      Except.ok [⟨10, Value.str "no"⟩, ⟨11, Value.str "x"⟩] ∧
    (⟨11, Value.str "x"⟩ : ResponseRecord) ∈
      [(⟨10, Value.str "no"⟩ : ResponseRecord), ⟨11, Value.str "x"⟩] := by
  refine ⟨by decide, by rfl, by decide⟩

/-- C1 (amended): the submission pipeline emits exactly one record per
fetched question, in fetch order and regardless of visibility; in particular
every visible, currently-rendered question contributes at most one record,
and a non-visible question with a previously held value still contributes a
record. -/
theorem submit_one_record_per_question (qs : List Question) (fd : FormData)
    (upload : String → Except String String) (rs : List ResponseRecord)
    (h : buildResponsePayload qs fd upload = Except.ok rs) :
    rs.map (fun r => r.question_id) = qs.map (fun q => q.id) := by
  induction qs generalizing rs with
  | nil =>
    simp [buildResponsePayload] at h
    simp [← h]
  | cons q rest ih =>
    rw [buildResponsePayload] at h
    cases ha : answerFor fd q upload with
    | error e => rw [ha] at h; cases h
    | ok a =>
      rw [ha] at h
      cases hb : buildResponsePayload rest fd upload with
      | error e => rw [hb] at h; cases h
      | ok rs' =>
        rw [hb] at h
        cases h
        simp [ih rs' hb]

/-- Witness for C1's amended theorem at a concrete payload. -/
theorem submit_one_record_per_question_witness :
    ([(⟨10, Value.str "no"⟩ : ResponseRecord), ⟨11, Value.str "x"⟩].map fun r => r.question_id) =
      ([sampleParentQ, sampleSubQ].map fun q => q.id) :=
  submit_one_record_per_question [sampleParentQ, sampleSubQ] sampleHiddenFd
    (fun _ => Except.ok "") [⟨10, Value.str "no"⟩, ⟨11, Value.str "x"⟩] (by rfl)

theorem buildResponsePayload_error_of_upload_error (qs : List Question) (fd : FormData)
    (upload : String → Except String String) (q : Question) (name err : String)
    (hty : q.type = "file") (hval : getKey fd (jsKey q.id) = some (Value.file name))
    (hup : upload name = Except.error err) :
    q ∈ qs → ∃ e, buildResponsePayload qs fd upload = Except.error e := by
  induction qs with
  | nil => intro hq; cases hq
  | cons q0 rest ih =>
    intro hq
    rcases List.mem_cons.mp hq with rfl | hmem
    · exact ⟨err, by simp [buildResponsePayload, answerFor, hty, hval, hup]⟩
    · cases ha : answerFor fd q0 upload with
      | error e => exact ⟨e, by simp [buildResponsePayload, ha]⟩
      | ok a =>
        obtain ⟨e, he⟩ := ih hmem
        exact ⟨e, by simp [buildResponsePayload, ha, he]⟩

/-- C6: when the upload of any file-typed answer fails, the whole submission
fails: no response records are persisted (no upsert is issued), the generic
user-visible error is surfaced, the submitted flag stays false (the form
remains editable) and the Answer State is unchanged. -/
theorem upload_failure_aborts_submission (qs : List Question) (fd : FormData)
    (upload : String → Except String String)
    (upsertErr : List ResponseRecord → Option String) (q : Question)
    (name err : String) (hq : q ∈ qs) (hty : q.type = "file")
    (hval : getKey fd (jsKey q.id) = some (Value.file name))
    (hup : upload name = Except.error err) :
    handleSubmit qs fd upload upsertErr = ⟨[], false, true, fd, false⟩ := by
  obtain ⟨e, he⟩ :=
    buildResponsePayload_error_of_upload_error qs fd upload q name err hty hval hup hq
  simp [handleSubmit, he]

/-- Witness for C6 at a concrete failing upload. -/
theorem upload_failure_aborts_submission_witness :
    handleSubmit [sampleFileQ] sampleFileFd (fun _ => Except.error "upload failed")
        (fun _ => none) =
      ⟨[], false, true, sampleFileFd, false⟩ :=
  upload_failure_aborts_submission [sampleFileQ] sampleFileFd
    (fun _ => Except.error "upload failed") (fun _ => none) sampleFileQ "cv.pdf"
    "upload failed" (by decide) rfl (by decide) rfl

/-- C7: the pipeline does issue a single upsert whose conflict key names
(organization identifier, question identifier), but the records it persists
have exactly the properties question_id and answer — no record carries the
organization identifier of the conflict key. -/
theorem response_record_lacks_organization_id :
    handleSubmit [sampleTextQ] sampleTextFd (fun _ => Except.ok "") (fun _ => none) =
      ⟨[([⟨1, Value.str "x"⟩], responsesOnConflict)], true, false, sampleTextFd, false⟩ ∧
    responsesOnConflict = "organization_id,question_id" ∧
    responseRecordFields = ["question_id", "answer"] ∧
    "organization_id" ∉ responseRecordFields := by
  refine ⟨by rfl, rfl, rfl, by decide⟩

/-- C8: with an email matching no organization, the `.single()` lookup
resolves to an error, so the code takes the thrown-error path: it surfaces
the generic "Failed to retrieve saved progress." alert (not the informational
"no organization found" message), aborts before fetching any responses, and
leaves the Answer State unchanged. -/
theorem resume_no_org_generic_error :
    handleSearch sampleEmailFd (fun _ => singleZeroRows) (fun _ => Except.ok []) =
      ⟨["Failed to retrieve saved progress."], true, false, sampleEmailFd⟩ := by
  rfl

theorem hexVal_hexDigitChar : ∀ d, d < 16 → hexVal (hexDigitChar d) = some d := by
  decide

theorem hexVal_zero : hexVal '0' = some 0 := by
  decide

theorem parse_escape (cs : List Char) (rest : List Char) :
    parseJsonStringRest (cs.flatMap escapeChar ++ '"' :: rest) = some (cs, rest) := by
  induction cs with
  | nil =>
    rw [List.flatMap_nil, List.nil_append, parseJsonStringRest.eq_def]
    simp
  | cons c cs ih =>
    rw [List.flatMap_cons, List.append_assoc]
    by_cases h1 : c = '"'
    · subst h1
      rw [show escapeChar '"' = ['\\', '"'] from rfl]
      simp only [List.cons_append, List.nil_append]
      rw [parseJsonStringRest.eq_def]
      simp [unescapeChar, ih]
    · by_cases h2 : c = '\\'
      · subst h2
        rw [show escapeChar '\\' = ['\\', '\\'] from rfl]
        simp only [List.cons_append, List.nil_append]
        rw [parseJsonStringRest.eq_def]
        simp [unescapeChar, ih]
      · by_cases h3 : c = '\x08'
        · subst h3
          rw [show escapeChar '\x08' = ['\\', 'b'] from rfl]
          simp only [List.cons_append, List.nil_append]
          rw [parseJsonStringRest.eq_def]
          simp [unescapeChar, ih]
        · by_cases h4 : c = '\x0c'
          · subst h4
            rw [show escapeChar '\x0c' = ['\\', 'f'] from rfl]
            simp only [List.cons_append, List.nil_append]
            rw [parseJsonStringRest.eq_def]
            simp [unescapeChar, ih]
          · by_cases h5 : c = '\n'
            · subst h5
              rw [show escapeChar '\n' = ['\\', 'n'] from rfl]
              simp only [List.cons_append, List.nil_append]
              rw [parseJsonStringRest.eq_def]
              simp [unescapeChar, ih]
            · by_cases h6 : c = '\r'
              · subst h6
                rw [show escapeChar '\r' = ['\\', 'r'] from rfl]
                simp only [List.cons_append, List.nil_append]
                rw [parseJsonStringRest.eq_def]
                simp [unescapeChar, ih]
              · by_cases h7 : c = '\t'
                · subst h7
                  rw [show escapeChar '\t' = ['\\', 't'] from rfl]
                  simp only [List.cons_append, List.nil_append]
                  rw [parseJsonStringRest.eq_def]
                  simp [unescapeChar, ih]
                · by_cases h8 : c.toNat < 32
                  · have hc : escapeChar c =
                        ['\\', 'u', '0', '0', hexDigitChar (c.toNat / 16),
                          hexDigitChar (c.toNat % 16)] := by
                      simp [escapeChar, h1, h2, h3, h4, h5, h6, h7, h8]
                    have hdiv : c.toNat / 16 < 16 := by omega
                    have hmod : c.toNat % 16 < 16 := by omega
                    rw [hc]
                    simp only [List.cons_append, List.nil_append]
                    rw [parseJsonStringRest.eq_def]
                    simp [hexVal_zero, hexVal_hexDigitChar _ hdiv,
                      hexVal_hexDigitChar _ hmod, ih]
                    rw [show c.toNat / 16 * 16 + c.toNat % 16 = c.toNat from by omega]
                    exact ⟨by omega, Char.ofNat_toNat c⟩
                  · have hc : escapeChar c = [c] := by
                      simp [escapeChar, h1, h2, h3, h4, h5, h6, h7, h8]
                    rw [hc]
                    simp only [List.cons_append, List.nil_append]
                    rw [parseJsonStringRest.eq_def]
                    simp [h1, h2, ih]

theorem parse_quote (s : String) (rest : List Char) :
    parseJsonString (quoteChars s ++ rest) = some (s.data, rest) := by
  show parseJsonString (('"' :: (s.data.flatMap escapeChar ++ ['"'])) ++ rest) = _
  simp only [List.cons_append, List.append_assoc, List.singleton_append]
  show parseJsonStringRest (s.data.flatMap escapeChar ++ '"' :: rest) = _
  exact parse_escape s.data rest

theorem elemsChars_cons (s : String) (l : List String) :
    ∃ t, elemsChars (s :: l) = '"' :: t := by
  cases l with
  | nil => exact ⟨_, rfl⟩
  | cons s' l' => exact ⟨_, rfl⟩

theorem elemsChars_length (s : String) (l : List String) :
    (s :: l).length ≤ (elemsChars (s :: l)).length := by
  induction l generalizing s with
  | nil =>
    rw [show elemsChars [s] = quoteChars s from rfl]
    simp only [quoteChars, List.length_cons, List.length_append, List.length_nil]
    omega
  | cons s' l' ih =>
    have h := ih s'
    rw [show elemsChars (s :: s' :: l') = quoteChars s ++ ',' :: elemsChars (s' :: l')
      from rfl]
    simp only [quoteChars, List.length_cons, List.length_append] at h ⊢
    omega

theorem parse_elems (l : List String) (s : String) (rest : List Char) :
    ∀ fuel, (s :: l).length ≤ fuel →
      parseElems fuel (elemsChars (s :: l) ++ ']' :: rest) = some (s :: l, rest) := by
  induction l generalizing s with
  | nil =>
    intro fuel hf
    match fuel, hf with
    | fuel + 1, _ =>
      rw [show elemsChars [s] = quoteChars s from rfl, parseElems]
      rw [parse_quote]
      simp [string_mk_data]
  | cons s' l' ih =>
    intro fuel hf
    match fuel, hf with
    | fuel + 1, hf =>
      have hlen : (s' :: l').length ≤ fuel := by
        simp only [List.length_cons] at hf ⊢
        omega
      rw [show elemsChars (s :: s' :: l') = quoteChars s ++ ',' :: elemsChars (s' :: l')
        from rfl, parseElems, List.append_assoc, List.cons_append]
      rw [parse_quote]
      simp [ih s' fuel hlen, string_mk_data]

theorem parse_stringify (l : List String) :
    parseStringArray (stringifyStringList l) = some l := by
  cases l with
  | nil => rfl
  | cons s l' =>
    obtain ⟨t, ht⟩ := elemsChars_cons s l'
    have hne : elemsChars (s :: l') ++ [']'] ≠ [']'] := by
      rw [ht]
      intro hcontra
      have hl := congrArg List.length hcontra
      simp at hl
    have hlen : (s :: l').length ≤ (elemsChars (s :: l') ++ [']']).length := by
      have h := elemsChars_length s l'
      simp only [List.length_append, List.length_cons, List.length_nil] at h ⊢
      omega
    show parseStringArray ⟨'[' :: (elemsChars (s :: l') ++ [']'])⟩ = some (s :: l')
    rw [parseStringArray.eq_def]
    simp only [if_neg hne]
    rw [parse_elems l' s [] _ hlen]

/-- C5: the progress save-time encoding and resume-time decoding form a
lossless round trip: a string answer whose first character is neither a brace
nor a bracket is stored and restored identically, and a string-list answer is
stringified and parsed back to the identical list (hence the same elements). -/
theorem progress_roundtrip :
    (∀ s : String, jsStartsWithChar s '{' = false → jsStartsWithChar s '[' = false →
      progressRoundTrip (Value.str s) = some (Value.str s)) ∧
    (∀ l : List String, progressRoundTrip (Value.list l) = some (Value.list l)) := by
  constructor
  · intro s h1 h2
    simp [progressRoundTrip, savePayloadAnswer, decodeAnswer, h1, h2]
  · intro l
    have hstart : jsStartsWithChar (stringifyStringList l) '[' = true := by
      simp [stringifyStringList, jsStartsWithChar]
    simp [progressRoundTrip, savePayloadAnswer, decodeAnswer, hstart, parse_stringify]

/-- Witness for C5 at a concrete plain string and a concrete string list. -/
theorem progress_roundtrip_witness :
    jsStartsWithChar "hello" '{' = false ∧
    progressRoundTrip (Value.str "hello") = some (Value.str "hello") ∧
    progressRoundTrip (Value.list ["a", "b"]) = some (Value.list ["a", "b"]) :=
  ⟨by decide, progress_roundtrip.1 "hello" (by decide) (by decide),
    progress_roundtrip.2 ["a", "b"]⟩

theorem mem_addToSub {x : Question} :
    ∀ (subs : List (String × List Question)) (sub : String) (q : Question),
      (∃ sg ∈ addToSub subs sub q, x ∈ sg.2) → (∃ sg ∈ subs, x ∈ sg.2) ∨ x = q := by
  intro subs
  induction subs with
  | nil =>
    intro sub q h
    obtain ⟨sg, hsg, hx⟩ := h
    simp [addToSub] at hsg
    subst hsg
    simp at hx
    exact Or.inr hx
  | cons kw rest ih =>
    intro sub q h
    obtain ⟨sg, hsg, hx⟩ := h
    obtain ⟨k, l⟩ := kw
    by_cases hk : k = sub
    · subst hk
      simp [addToSub] at hsg
      rcases hsg with rfl | hsg
      · rcases List.mem_append.mp hx with hxl | hxq
        · exact Or.inl ⟨(k, l), List.mem_cons_self _ _, hxl⟩
        · simp at hxq
          exact Or.inr hxq
      · exact Or.inl ⟨sg, List.mem_cons_of_mem _ hsg, hx⟩
    · simp [addToSub, hk] at hsg
      rcases hsg with rfl | hsg
      · exact Or.inl ⟨(k, l), List.mem_cons_self _ _, hx⟩
      · rcases ih sub q ⟨sg, hsg, hx⟩ with ⟨sg', hsg', hx'⟩ | hxq
        · exact Or.inl ⟨sg', List.mem_cons_of_mem _ hsg', hx'⟩
        · exact Or.inr hxq

theorem mem_addToGrouped {x : Question} :
    ∀ (acc : Grouped) (sec sub : String) (q : Question),
      inGrouped (addToGrouped acc sec sub q) x → inGrouped acc x ∨ x = q := by
  intro acc
  induction acc with
  | nil =>
    intro sec sub q h
    obtain ⟨g, hg, sg, hsg, hx⟩ := h
    simp [addToGrouped] at hg
    subst hg
    simp at hsg
    subst hsg
    simp at hx
    exact Or.inr hx
  | cons kw rest ih =>
    intro sec sub q h
    obtain ⟨g, hg, sg, hsg, hx⟩ := h
    obtain ⟨k, subs⟩ := kw
    by_cases hk : k = sec
    · subst hk
      simp [addToGrouped] at hg
      rcases hg with rfl | hg
      · rcases mem_addToSub subs sub q ⟨sg, hsg, hx⟩ with ⟨sg', hsg', hx'⟩ | hxq
        · exact Or.inl ⟨(k, subs), List.mem_cons_self _ _, sg', hsg', hx'⟩
        · exact Or.inr hxq
      · exact Or.inl ⟨g, List.mem_cons_of_mem _ hg, sg, hsg, hx⟩
    · simp [addToGrouped, hk] at hg
      rcases hg with rfl | hg
      · exact Or.inl ⟨(k, subs), List.mem_cons_self _ _, sg, hsg, hx⟩
      · rcases ih sec sub q ⟨g, hg, sg, hsg, hx⟩ with ⟨g', hg', sg', hsg', hx'⟩ | hxq
        · exact Or.inl ⟨g', List.mem_cons_of_mem _ hg', sg', hsg', hx'⟩
        · exact Or.inr hxq

theorem inGrouped_foldl (x : Question) :
    ∀ (qs : List Question) (acc : Grouped),
      inGrouped
        (qs.foldl
          (fun a q =>
            addToGrouped a (jsOrString q.sectionName "General")
              (jsOrOptString q.subsection "No Subsection") q)
          acc) x →
      inGrouped acc x ∨ x ∈ qs := by
  intro qs
  induction qs with
  | nil =>
    intro acc h
    exact Or.inl h
  | cons q qs ih =>
    intro acc h
    rw [List.foldl_cons] at h
    rcases ih _ h with h' | h'
    · rcases mem_addToGrouped _ _ _ _ h' with h'' | rfl
      · exact Or.inl h''
      · exact Or.inr (List.mem_cons_self _ _)
    · exact Or.inr (List.mem_cons_of_mem _ h')

theorem mem_of_inGrouped {qs : List Question} {x : Question}
    (h : inGrouped (groupedQuestions qs) x) : x ∈ qs := by
  rcases inGrouped_foldl x qs [] h with h' | h'
  · obtain ⟨g, hg, -⟩ := h'
    cases hg
  · exact h'

theorem renderQuestionFuel_mem (qs : List Question) (fd : FormData) (x : Question) :
    ∀ fuel (q0 : Question), q0 ∈ qs → x ∈ renderQuestionFuel fuel qs fd q0 →
      x = q0 ∨ ∃ m ∈ qs.map (fun q => q.id), x.parent_question_id = some m := by
  intro fuel
  induction fuel with
  | zero =>
    intro q0 hq0 hx
    simp [renderQuestionFuel] at hx
  | succ fuel ih =>
    intro q0 hq0 hx
    rw [renderQuestionFuel] at hx
    split at hx
    · split at hx
      · rcases List.mem_cons.mp hx with rfl | hx'
        · exact Or.inl rfl
        · obtain ⟨sub, hsub, hxsub⟩ := List.mem_flatMap.mp hx'
          obtain ⟨hsubqs, hcond⟩ := List.mem_filter.mp hsub
          rcases ih sub hsubqs hxsub with rfl | hm
          · rw [Bool.and_eq_true] at hcond
            have hbeq := hcond.1
            cases hpq : x.parent_question_id with
            | none =>
              rw [hpq] at hbeq
              simp [beqParentId] at hbeq
            | some p =>
              rw [hpq] at hbeq
              simp [beqParentId] at hbeq
              subst hbeq
              exact Or.inr ⟨q0.id, List.mem_map.mpr ⟨q0, hq0, rfl⟩, rfl⟩
          · exact Or.inr hm
      · split at hx
        · simp at hx
          exact Or.inl hx
        · simp at hx
    · simp at hx

theorem not_mem_render_top (qs : List Question) (fd : FormData) (fuel : Nat)
    (x : Question) (p : Nat) (hp : x.parent_question_id = some p) (hp0 : p ≠ 0)
    (horphan : p ∉ qs.map (fun q => q.id)) (ql : List Question)
    (hql : ∀ q ∈ ql, q ∈ qs) :
    x ∉ (ql.filter fun q => !(truthyParentId q.parent_question_id)).flatMap
      (renderQuestionFuel fuel qs fd) := by
  intro hx
  obtain ⟨q0, hq0, hx3⟩ := List.mem_flatMap.mp hx
  obtain ⟨hq0mem, hq0top⟩ := List.mem_filter.mp hq0
  rcases renderQuestionFuel_mem qs fd x fuel q0 (hql q0 hq0mem) hx3 with rfl | ⟨m, hm, hpm⟩
  · rw [hp] at hq0top
    simp [truthyParentId, hp0] at hq0top
  · rw [hp] at hpm
    have hpe : p = m := Option.some.inj hpm
    exact horphan (hpe ▸ hm)

/-- C3 (amended): a question whose parent identifier is nonzero and refers to
no question in the fetched set never renders, for every Answer State
(including resume-populated ones), collapse state and recursion depth: the
top-level listing excludes it (its parent identifier is truthy) and the
recursive sub-question rendering only selects children of questions that are
themselves fetched. -/
theorem orphan_never_renders (qs : List Question) (fd : FormData)
    (collapsed : String → Bool) (fuel : Nat) (x : Question) (p : Nat)
    (hp : x.parent_question_id = some p) (hp0 : p ≠ 0)
    (horphan : p ∉ qs.map (fun q => q.id)) :
    x ∉ renderedQuestions qs fd collapsed fuel := by
  intro hx
  obtain ⟨g, hg, hx1⟩ := List.mem_flatMap.mp hx
  split at hx1
  · simp at hx1
  · obtain ⟨sg, hsg, hx2⟩ := List.mem_flatMap.mp hx1
    have hql : ∀ q ∈ sg.2, q ∈ qs := by
      intro q hq
      exact mem_of_inGrouped ⟨g, hg, sg, hsg, hq⟩
    split at hx2
    · exact not_mem_render_top qs fd fuel x p hp hp0 horphan sg.2 hql hx2
    · split at hx2
      · simp at hx2
      · exact not_mem_render_top qs fd fuel x p hp hp0 horphan sg.2 hql hx2

/-- Witness for C3's amended theorem at a concrete orphaned question. -/
theorem orphan_never_renders_witness :
    sampleOrphanQ2 ∉ renderedQuestions [sampleOrphanQ2] [] (fun _ => false) 3 :=
  orphan_never_renders [sampleOrphanQ2] [] (fun _ => false) 3 sampleOrphanQ2 99 rfl
    (by decide) (by decide)

/-- C3 counterexample: a question whose parent identifier is the JS-falsy
number 0, which refers to no question in the fetched set, is treated as
top-level and renders, where the claim requires an orphaned reference never
to render. -/
theorem orphan_zero_parent_renders_counterexample :
    sampleOrphanQ.parent_question_id = some 0 ∧
    0 ∉ [sampleOrphanQ].map (fun q => q.id) ∧
    sampleOrphanQ ∈ renderedQuestions [sampleOrphanQ] [] (fun _ => false) 1 := by
  refine ⟨rfl, by decide, by decide⟩

theorem digitChar_ne_o : ∀ d, digitChar d ≠ 'o' := by
  intro d
  match d with
  | 0 | 1 | 2 | 3 | 4 | 5 | 6 | 7 | 8 => decide
  | d + 9 =>
    intro h
    rw [show digitChar (d + 9) = '9' from rfl] at h
    exact absurd h (by decide)

theorem natDigitsAux_chars :
    ∀ fuel n c, c ∈ natDigitsAux fuel n → ∃ d, c = digitChar d := by
  intro fuel
  induction fuel with
  | zero =>
    intro n c hc
    simp [natDigitsAux] at hc
  | succ fuel ih =>
    intro n c hc
    rw [natDigitsAux] at hc
    split at hc
    · simp at hc
      exact ⟨n, hc⟩
    · rcases List.mem_append.mp hc with h | h
      · exact ih _ _ h
      · simp at h
        exact ⟨n % 10, h⟩

theorem jsKey_ne_contactEmail : ∀ n, jsKey n ≠ "contactEmail" := by
  intro n h
  have hdata : natDigitsAux (n + 1) n = "contactEmail".data := congrArg String.data h
  have hmem : 'o' ∈ natDigitsAux (n + 1) n := by
    rw [hdata]
    decide
  obtain ⟨d, hd⟩ := natDigitsAux_chars _ _ _ hmem
  exact digitChar_ne_o d hd.symm

theorem reachable_keys {qs : List Question} {fd : FormData}
    (h : ReachableFormData qs fd) : ∀ kv ∈ fd, ∃ n, kv.1 = jsKey n := by
  induction h with
  | init =>
    intro kv hkv
    cases hkv
  | textInput q hq v fd h ih =>
    intro kv hkv
    rcases mem_setKey kv hkv with hk | hkv'
    · exact ⟨q.id, hk⟩
    · exact ih kv hkv'
  | checkedInput q hq checked fd h ih =>
    intro kv hkv
    rcases mem_setKey kv hkv with hk | hkv'
    · exact ⟨q.id, hk⟩
    · exact ih kv hkv'
  | checkboxInput q hq v checked fd fd' h hstep ih =>
    intro kv hkv
    obtain ⟨cur, hcur, hfd'⟩ := Option.map_eq_some'.mp hstep
    rw [← hfd'] at hkv
    rcases mem_setKey kv hkv with hk | hkv'
    · exact ⟨q.id, hk⟩
    · exact ih kv hkv'
  | fileInput q hq name fd h ih =>
    intro kv hkv
    rcases mem_setKey kv hkv with hk | hkv'
    · exact ⟨q.id, hk⟩
    · exact ih kv hkv'

theorem reachable_no_contactEmail {qs : List Question} {fd : FormData}
    (h : ReachableFormData qs fd) : getKey fd "contactEmail" = none := by
  cases hg : getKey fd "contactEmail" with
  | none => rfl
  | some v =>
    obtain ⟨n, hn⟩ := reachable_keys h ("contactEmail", v) (getKey_mem hg)
    exact absurd hn.symm (jsKey_ne_contactEmail n)

/-- C10: in every Answer State reachable through user interaction with the
rendered form, every key is a stringified numeric question identifier, so the
key "contactEmail" is never present; consequently the save-progress and the
resume operation both stop at their email guard, show the email prompt, and
issue no remote read or write. -/
theorem reachable_email_guard (qs : List Question) (fd : FormData)
    (h : ReachableFormData qs fd) :
    getKey fd "contactEmail" = none ∧
    (∀ formId upsertErr, handleSaveProgress formId fd upsertErr =
      ⟨["Please enter your email before saving progress."], []⟩) ∧
    (∀ orgLookup fetchResponses, handleSearch fd orgLookup fetchResponses =
      ⟨["Please enter an email to search."], false, false, fd⟩) := by
  have hnone := reachable_no_contactEmail h
  refine ⟨hnone, ?_, ?_⟩
  · intro formId upsertErr
    simp [handleSaveProgress, hnone, jsTruthyOpt]
  · intro orgLookup fetchResponses
    simp [handleSearch, hnone]

/-- Witness for C10 at a concrete reachable Answer State. -/
theorem reachable_email_guard_witness :
    handleSaveProgress 1 (setKey [] (jsKey 1) (Value.str "hi")) (fun _ => none) =
      ⟨["Please enter your email before saving progress."], []⟩ ∧
    handleSearch (setKey [] (jsKey 1) (Value.str "hi")) (fun _ => singleZeroRows)
        (fun _ => Except.ok []) =
      ⟨["Please enter an email to search."], false, false,
        setKey [] (jsKey 1) (Value.str "hi")⟩ :=
  ⟨(reachable_email_guard [sampleTextQ] (setKey [] (jsKey 1) (Value.str "hi"))
      (ReachableFormData.textInput sampleTextQ (by decide) "hi" []
        ReachableFormData.init)).2.1 1 (fun _ => none),
   (reachable_email_guard [sampleTextQ] (setKey [] (jsKey 1) (Value.str "hi"))
      (ReachableFormData.textInput sampleTextQ (by decide) "hi" []
        ReachableFormData.init)).2.2 (fun _ => singleZeroRows) (fun _ => Except.ok [])⟩

end InfoForm
